import Mathlib

/-!
Verification of the type-metadata core: a shallow embedding of the
namespace validation, the TypeId data model, the sum-type compaction pass,
the MetaType identity handle, and the derive entry point, together with
theorems checking the specified behaviour.
-/

/-! ## Namespace construction (type_id.rs) -/

/-- Errors from namespace construction: either the segment list was empty,
or some segment is not a valid Rust identifier (index of the first one). -/
inductive NamespaceError where
  | missingSegments : NamespaceError
  | invalidIdentifier (segment : Nat) : NamespaceError
deriving DecidableEq, Repr

/-- A namespace: the sequence of its path segments. -/
structure Namespace where
  segments : List String
deriving DecidableEq, Repr

/-- Is `c` a valid ASCII identifier head byte: underscore or letter. -/
def isIdHead (c : Char) : Bool :=
  c == '_' || (decide (97 ≤ c.toNat) && decide (c.toNat ≤ 122))
    || (decide (65 ≤ c.toNat) && decide (c.toNat ≤ 90))

/-- Is `c` a valid ASCII identifier tail byte: underscore, letter or digit. -/
def isIdTail (c : Char) : Bool :=
  c == '_' || (decide (97 ≤ c.toNat) && decide (c.toNat ≤ 122))
    || (decide (65 ≤ c.toNat) && decide (c.toNat ≤ 90))
    || (decide (48 ≤ c.toNat) && decide (c.toNat ≤ 57))

/-- Embeds `is_rust_identifier` from `Namespace::new`: the string is all-ASCII,
nonempty, its head is a letter or underscore, and its tail is made of
letters, digits and underscores. -/
def is_rust_identifier (s : String) : Bool :=
  if !(s.data.all (fun c => decide (c.toNat < 128))) then
    false
  else
    match s.data with
    | [] => false
    | head :: tail => isIdHead head && tail.all isIdTail

/-- Embeds `Iterator::position`: index of the first element satisfying `p`. -/
def position (p : α → Bool) : List α → Option Nat
  | [] => none
  | x :: xs => if p x then some 0 else (position p xs).map (· + 1)

/-- Embeds `Namespace::new`: reject an empty segment list, reject the first
non-identifier segment by index, otherwise store the segments as given. -/
def Namespace.new (segments : List String) : Except NamespaceError Namespace :=
  if segments.length = 0 then
    .error .missingSegments
  else
    match position (fun seg => !is_rust_identifier seg) segments with
    | some err_at => .error (.invalidIdentifier err_at)
    | none => .ok ⟨segments⟩

/-- Embeds `str::split` specialised to the fixed separator, over character lists:
each leftmost occurrence of two consecutive colons ends a segment. -/
def splitDoubleColon : List Char → List (List Char)
  | [] => [[]]
  | [c] => [[c]]
  | c1 :: c2 :: rest =>
    if c1 = ':' ∧ c2 = ':' then
      [] :: splitDoubleColon rest
    else
      match splitDoubleColon (c2 :: rest) with
      | [] => [[c1]]
      | seg :: segs => (c1 :: seg) :: segs

/-- Splitting a path string at the fixed separator, as strings. -/
def splitPath (p : String) : List String :=
  (splitDoubleColon p.data).map (fun cs => String.mk cs)

/-- Embeds `Namespace::from_str`: split the module path at the separator and
forward the segments to `Namespace.new`. -/
def Namespace.from_str (module_path : String) : Except NamespaceError Namespace :=
  Namespace.new (splitPath module_path)

/-- Embeds `Namespace::prelude`: the namespace with no segments. -/
def Namespace.prelude : Namespace :=
  ⟨[]⟩

/-! ### Helper lemmas -/

theorem position_eq_none_of_all {p : α → Bool} :
    ∀ {l : List α}, (∀ x ∈ l, p x = false) → position p l = none := by
  intro l h
  induction l with
  | nil => rfl
  | cons x xs ih =>
    have hx : p x = false := h x (List.mem_cons_self x xs)
    simp only [position, hx, if_neg Bool.false_ne_true]
    rw [ih fun y hy => h y (List.mem_cons_of_mem x hy)]
    rfl

theorem position_eq_some_first {p : α → Bool} :
    ∀ {l : List α} {k : Nat} (hk : k < l.length),
      p (l.get ⟨k, hk⟩) = true →
      (∀ j (hj : j < k), p (l.get ⟨j, Nat.lt_trans hj hk⟩) = false) →
      position p l = some k := by
  intro l
  induction l with
  | nil => intro k hk; exact absurd hk (Nat.not_lt_zero k)
  | cons x xs ih =>
    intro k hk hget hbefore
    cases k with
    | zero =>
      simp only [List.get] at hget
      simp [position, hget]
    | succ k =>
      have hx : p x = false := by
        have := hbefore 0 (Nat.succ_pos k)
        simpa using this
      have hk' : k < xs.length := Nat.lt_of_succ_lt_succ hk
      have hget' : p (xs.get ⟨k, hk'⟩) = true := by simpa using hget
      have hbefore' : ∀ j (hj : j < k), p (xs.get ⟨j, Nat.lt_trans hj hk'⟩) = false := by
        intro j hj
        have := hbefore (j + 1) (Nat.succ_lt_succ hj)
        simpa using this
      simp only [position, hx, if_neg Bool.false_ne_true]
      rw [ih hk' hget' hbefore']
      rfl

theorem splitDoubleColon_ne_nil : ∀ s, splitDoubleColon s ≠ [] := by
  intro s
  induction s using splitDoubleColon.induct with
  | case1 => simp [splitDoubleColon]
  | case2 c => simp [splitDoubleColon]
  | case3 c1 c2 rest hsep ih =>
    simp [splitDoubleColon, hsep]
  | case4 c1 c2 rest hsep hmatch ih =>
    exact absurd hmatch ih
  | case5 c1 c2 rest hsep seg segs hmatch ih =>
    simp only [splitDoubleColon, if_neg hsep, hmatch]
    simp

theorem splitPath_ne_nil (p : String) : splitPath p ≠ [] := by
  simp only [splitPath, ne_eq, List.map_eq_nil_iff]
  exact splitDoubleColon_ne_nil p.data

/-! ## TypeId data model (type_id.rs)

The Rust code instantiates these at the default free form whose string
representation is a static string; the embedding uses `String` directly.
`TypeIdArray.len` is `u16` in Rust; the bound is purely type-level, so it
is embedded as the value carried, a natural number. -/

/-- The primitive type identifiers. -/
inductive TypeIdPrimitive where
  | bool | str | u8 | u16 | u32 | u64 | u128 | i8 | i16 | i32 | i64 | i128
deriving DecidableEq, Repr

mutual

/-- A type identifier: custom, slice, array, tuple or primitive. -/
inductive TypeId where
  | custom (c : TypeIdCustom)
  | slice (s : TypeIdSlice)
  | array (a : TypeIdArray)
  | tuple (t : TypeIdTuple)
  | primitive (p : TypeIdPrimitive)

/-- A custom type identifier: name, namespace and generic parameters. -/
inductive TypeIdCustom where
  | mk (name : String) (name_space : Namespace) (type_params : List TypeId)

/-- An array type identifier: length and element type. -/
inductive TypeIdArray where
  | mk (len : Nat) (type_param : TypeId)

/-- A tuple type identifier: the element types. -/
inductive TypeIdTuple where
  | mk (type_params : List TypeId)

/-- A slice type identifier: the element type. -/
inductive TypeIdSlice where
  | mk (type_param : TypeId)

end

def TypeIdCustom.name : TypeIdCustom → String
  | .mk n _ _ => n

def TypeIdCustom.name_space : TypeIdCustom → Namespace
  | .mk _ ns _ => ns

def TypeIdCustom.type_params : TypeIdCustom → List TypeId
  | .mk _ _ ps => ps

def TypeIdArray.len : TypeIdArray → Nat
  | .mk l _ => l

def TypeIdArray.type_param : TypeIdArray → TypeId
  | .mk _ t => t

def TypeIdTuple.type_params : TypeIdTuple → List TypeId
  | .mk ps => ps

def TypeIdSlice.type_param : TypeIdSlice → TypeId
  | .mk t => t

/-- Embeds `TypeIdCustom::new`: stores name, namespace and collected parameters. -/
def TypeIdCustom.new (name : String) (name_space : Namespace)
    (type_params : List TypeId) : TypeIdCustom :=
  .mk name name_space type_params

/-- Embeds `TypeIdArray::new`: stores the length and the boxed element type. -/
def TypeIdArray.new (len : Nat) (type_param : TypeId) : TypeIdArray :=
  .mk len type_param

/-- Embeds `TypeIdTuple::new`: stores the collected element types. -/
def TypeIdTuple.new (type_params : List TypeId) : TypeIdTuple :=
  .mk type_params

/-- Embeds `TypeIdTuple::unit`: the zero-element tuple, via `new`. -/
def TypeIdTuple.unit : TypeIdTuple :=
  TypeIdTuple.new []

/-- Embeds `TypeIdSlice::new`: stores the boxed element type. -/
def TypeIdSlice.new (type_param : TypeId) : TypeIdSlice :=
  .mk type_param

/-! ## Forms, Registry and sum-type compaction (type/sum.rs)

The `Form` parameter selects the representation of string-bearing and
type-bearing fields: the meta form stores strings inline and refers to
types through MetaType handles (represented here by their identity
tokens), the compact form stores registry indices. -/

/-- A representation form: the types of stored strings and type references. -/
structure Form where
  Str : Type
  TypeRef : Type

/-- The meta form: inline strings; type references carry the identity
token of the referenced type (standing in for the MetaType handle). -/
abbrev MetaForm : Form := ⟨String, Nat⟩

/-- The compact form: registry indices for both strings and types. -/
abbrev CompactForm : Form := ⟨Nat, Nat⟩

/-- Modelled from the spec: the interning Registry (its source file is not
under src/). It owns the string table and the type table, both in
first-seen order. -/
structure Registry where
  strings : List String
  types : List Nat
deriving DecidableEq, Repr

/-- Modelled from the spec: `intern_string` returns the existing index if
the string was seen before, else appends it and returns the new index. -/
def Registry.register_string (r : Registry) (s : String) : Nat × Registry :=
  match position (fun t => t == s) r.strings with
  | some i => (i, r)
  | none => (r.strings.length, ⟨r.strings ++ [s], r.types⟩)

/-- Modelled from the spec: `intern_type`, the same contract keyed by the
identity token. -/
def Registry.register_type (r : Registry) (id : Nat) : Nat × Registry :=
  match position (fun t => t == id) r.types with
  | some i => (i, r)
  | none => (r.types.length, ⟨r.strings, r.types ++ [id]⟩)

/-- State-passing `map`: compact each element in declaration order,
threading the registry left to right. -/
def mapAccum (f : α → Registry → β × Registry) : List α → Registry → List β × Registry
  | [], r => ([], r)
  | x :: xs, r =>
    let y := f x r
    let ys := mapAccum f xs y.2
    (y.1 :: ys.1, ys.2)

/-- Modelled from the spec: the path of a sum type (its source file is not
under src/), a string-bearing field interned during compaction. -/
structure TypePath (F : Form) where
  path : F.Str

/-- A C-like enum variant: a name and a 64-bit discriminant. -/
structure ClikeEnumVariant (F : Form) where
  name : F.Str
  discriminant : Nat

/-- A C-like enum: a path and its variants in declaration order. -/
structure TypeSumClikeEnum (F : Form) where
  path : TypePath F
  variants : List (ClikeEnumVariant F)

/-- Modelled from the spec: a named field (its source file is not under
src/): a name and a type reference. -/
structure NamedField (F : Form) where
  name : F.Str
  ty : F.TypeRef

/-- Modelled from the spec: an unnamed field (its source file is not under
src/): a type reference. -/
structure UnnamedField (F : Form) where
  ty : F.TypeRef

/-- A unit struct enum variant: just a name. -/
structure EnumVariantUnit (F : Form) where
  name : F.Str

/-- A struct enum variant: a name and named fields in declaration order. -/
structure EnumVariantStruct (F : Form) where
  name : F.Str
  fields : List (NamedField F)

/-- A tuple-struct enum variant: a name and unnamed fields in declaration
order. -/
structure EnumVariantTupleStruct (F : Form) where
  name : F.Str
  fields : List (UnnamedField F)

/-- A Rust enum variant: unit, struct or tuple-struct. -/
inductive EnumVariant (F : Form) where
  | unit (u : EnumVariantUnit F)
  | struct (s : EnumVariantStruct F)
  | tupleStruct (t : EnumVariantTupleStruct F)

/-- A Rust enum: a path and its variants in declaration order. -/
structure TypeSumEnum (F : Form) where
  path : TypePath F
  variants : List (EnumVariant F)

/-- A sum type: a C-like enum or a Rust enum. -/
inductive TypeSum (F : Form) where
  | clikeEnum (c : TypeSumClikeEnum F)
  | enum (e : TypeSumEnum F)

/-- Embeds `TypePath::into_compact` (modelled from the spec): intern the path
string. -/
def TypePath.into_compact (p : TypePath MetaForm) (r : Registry) :
    TypePath CompactForm × Registry :=
  let n := r.register_string p.path
  (⟨n.1⟩, n.2)

/-- Embeds `NamedField::into_compact` (modelled from the spec): intern the name,
then the referenced type by identity. -/
def NamedField.into_compact (f : NamedField MetaForm) (r : Registry) :
    NamedField CompactForm × Registry :=
  let n := r.register_string f.name
  let t := n.2.register_type f.ty
  (⟨n.1, t.1⟩, t.2)

/-- Embeds `UnnamedField::into_compact` (modelled from the spec): intern the
referenced type by identity. -/
def UnnamedField.into_compact (f : UnnamedField MetaForm) (r : Registry) :
    UnnamedField CompactForm × Registry :=
  let t := r.register_type f.ty
  (⟨t.1⟩, t.2)

/-- Embeds `ClikeEnumVariant::into_compact`: intern the name, keep the
discriminant. -/
def ClikeEnumVariant.into_compact (v : ClikeEnumVariant MetaForm) (r : Registry) :
    ClikeEnumVariant CompactForm × Registry :=
  let n := r.register_string v.name
  (⟨n.1, v.discriminant⟩, n.2)

/-- Embeds `EnumVariantUnit::into_compact`: intern the name. -/
def EnumVariantUnit.into_compact (v : EnumVariantUnit MetaForm) (r : Registry) :
    EnumVariantUnit CompactForm × Registry :=
  let n := r.register_string v.name
  (⟨n.1⟩, n.2)

/-- Embeds `EnumVariantStruct::into_compact`: intern the name, then compact the
fields in declaration order. -/
def EnumVariantStruct.into_compact (v : EnumVariantStruct MetaForm) (r : Registry) :
    EnumVariantStruct CompactForm × Registry :=
  let n := r.register_string v.name
  let fs := mapAccum NamedField.into_compact v.fields n.2
  (⟨n.1, fs.1⟩, fs.2)

/-- Embeds `EnumVariantTupleStruct::into_compact`: intern the name, then compact
the fields in declaration order. -/
def EnumVariantTupleStruct.into_compact (v : EnumVariantTupleStruct MetaForm)
    (r : Registry) : EnumVariantTupleStruct CompactForm × Registry :=
  let n := r.register_string v.name
  let fs := mapAccum UnnamedField.into_compact v.fields n.2
  (⟨n.1, fs.1⟩, fs.2)

/-- Embeds `EnumVariant::into_compact`: compact the payload, keeping the variant
kind. -/
def EnumVariant.into_compact (v : EnumVariant MetaForm) (r : Registry) :
    EnumVariant CompactForm × Registry :=
  match v with
  | .unit u =>
    let c := u.into_compact r
    (.unit c.1, c.2)
  | .struct s =>
    let c := s.into_compact r
    (.struct c.1, c.2)
  | .tupleStruct t =>
    let c := t.into_compact r
    (.tupleStruct c.1, c.2)

/-- Embeds `TypeSumClikeEnum::into_compact`: compact the path, then the variants
in declaration order. -/
def TypeSumClikeEnum.into_compact (e : TypeSumClikeEnum MetaForm) (r : Registry) :
    TypeSumClikeEnum CompactForm × Registry :=
  let p := e.path.into_compact r
  let vs := mapAccum ClikeEnumVariant.into_compact e.variants p.2
  (⟨p.1, vs.1⟩, vs.2)

/-- Embeds `TypeSumEnum::into_compact`: compact the path, then the variants in
declaration order. -/
def TypeSumEnum.into_compact (e : TypeSumEnum MetaForm) (r : Registry) :
    TypeSumEnum CompactForm × Registry :=
  let p := e.path.into_compact r
  let vs := mapAccum EnumVariant.into_compact e.variants p.2
  (⟨p.1, vs.1⟩, vs.2)

/-- Embeds `TypeSum::into_compact`: compact the payload, keeping the constructor. -/
def TypeSum.into_compact (s : TypeSum MetaForm) (r : Registry) :
    TypeSum CompactForm × Registry :=
  match s with
  | .clikeEnum c =>
    let o := c.into_compact r
    (.clikeEnum o.1, o.2)
  | .enum e =>
    let o := e.into_compact r
    (.enum o.1, o.2)

/-- Embeds `TypeSumClikeEnum::new`: stores the path and the collected variants. -/
def TypeSumClikeEnum.new (path : TypePath MetaForm)
    (variants : List (ClikeEnumVariant MetaForm)) : TypeSumClikeEnum MetaForm :=
  ⟨path, variants⟩

/-- Embeds `TypeSumEnum::new`: stores the path and the collected variants. -/
def TypeSumEnum.new (path : TypePath MetaForm)
    (variants : List (EnumVariant MetaForm)) : TypeSumEnum MetaForm :=
  ⟨path, variants⟩

/-- Embeds `ClikeEnumVariant::new`: stores the name and the discriminant. -/
def ClikeEnumVariant.new (name : String) (discriminant : Nat) :
    ClikeEnumVariant MetaForm :=
  ⟨name, discriminant⟩

/-- Embeds `EnumVariantUnit::new`: stores the name. -/
def EnumVariantUnit.new (name : String) : EnumVariantUnit MetaForm :=
  ⟨name⟩

/-- Embeds `EnumVariantStruct::new`: stores the name and the collected fields. -/
def EnumVariantStruct.new (name : String) (fields : List (NamedField MetaForm)) :
    EnumVariantStruct MetaForm :=
  ⟨name, fields⟩

/-- Embeds `EnumVariantTupleStruct::new`: stores the name and the collected
fields. -/
def EnumVariantTupleStruct.new (name : String)
    (fields : List (UnnamedField MetaForm)) : EnumVariantTupleStruct MetaForm :=
  ⟨name, fields⟩

/-- The constructor kind of an enum variant, for stating that compaction
preserves it. -/
def EnumVariant.kind : EnumVariant F → Nat
  | .unit _ => 0
  | .struct _ => 1
  | .tupleStruct _ => 2

theorem mapAccum_length (f : α → Registry → β × Registry) :
    ∀ (xs : List α) (r : Registry), ((mapAccum f xs r).1).length = xs.length := by
  intro xs
  induction xs with
  | nil => intro r; rfl
  | cons x xs ih => intro r; simp [mapAccum, ih]

theorem mapAccum_get (f : α → Registry → β × Registry) :
    ∀ (xs : List α) (r : Registry) (i : Nat) (hi : i < xs.length),
      ((mapAccum f xs r).1).get ⟨i, by rw [mapAccum_length]; exact hi⟩ =
        (f (xs.get ⟨i, hi⟩) ((mapAccum f (xs.take i) r).2)).1 := by
  intro xs
  induction xs with
  | nil => intro r i hi; exact absurd hi (Nat.not_lt_zero i)
  | cons x xs ih =>
    intro r i hi
    cases i with
    | zero => rfl
    | succ i =>
      have hi' : i < xs.length := Nat.lt_of_succ_lt_succ hi
      have := ih (f x r).2 i hi'
      simpa [mapAccum] using this

/-! ## MetaType (meta_type.rs)

`MetaType` stores two unevaluated resolver functions and the standard
identity token of the described type. The identity token type
(`core::any::TypeId`) is embedded as a natural number; the resolver
payload types are parameters, since `TypeId` and the full `TypeDef` at the
meta form live partly outside the embedded sources. -/

/-- A metatype handle: two resolver function pointers and the identity
token used by all the standard traits. -/
structure MetaType (α β : Type) where
  fn_type_id : Unit → α
  fn_type_def : Unit → β
  any_id : Nat

/-- Embeds `PartialEq for MetaType`: equality of the identity tokens only. -/
def MetaType.eq (a b : MetaType α β) : Bool :=
  a.any_id == b.any_id

/-- Embeds `Ord for MetaType`: the ordering of the identity tokens only. -/
def MetaType.cmp (a b : MetaType α β) : Ordering :=
  compare a.any_id b.any_id

/-- Embeds `Hash for MetaType`: feed exactly the identity token to the hasher
state. -/
def MetaType.hash (a : MetaType α β) (writeAnyId : σ → Nat → σ) (state : σ) : σ :=
  writeAnyId state a.any_id

/-- Embeds `MetaType::type_id`: invoke the stored TypeId resolver. -/
def MetaType.type_id (a : MetaType α β) : α :=
  a.fn_type_id ()

/-- Embeds `MetaType::type_def`: invoke the stored TypeDef resolver. -/
def MetaType.type_def (a : MetaType α β) : β :=
  a.fn_type_def ()

/-- The compile-time environment a concrete type brings to `MetaType::new`:
its standard identity token (`core::any::TypeId::of`, injective over
distinct types) and its two resolvers from the `HasTypeId` and
`HasTypeDef` implementations. -/
structure TypeEnv (τ α β : Type) where
  anyIdOf : τ → Nat
  resolveId : τ → Unit → α
  resolveDef : τ → Unit → β

/-- Embeds `MetaType::new::<T>()`: store the two resolvers of `T` unevaluated and
the identity token of `T`. -/
def MetaType.new (env : TypeEnv τ α β) (t : τ) : MetaType α β :=
  ⟨env.resolveId t, env.resolveDef t, env.anyIdOf t⟩

/-- Embeds `MetaType::of(elem)`: ignore the value and defer to `new` at its
type. -/
def MetaType.of (env : TypeEnv τ α β) (t : τ) (_elem : γ) : MetaType α β :=
  MetaType.new env t

/-! ## Derive entry point (derive/src/metadata.rs)

Token streams and errors are abstract here; the two per-aspect generators
live outside the embedded sources, so `generate_impl` is parametrised over
them. -/

/-- A token stream, abstracted to a list of opaque tokens. -/
abbrev TokenStream := List Nat

/-- Embeds `generate_impl`: run the type-id generator, then the type-def
generator, concatenating their outputs; the first error is returned. -/
def generate_impl (gti gtd : TokenStream → Except ε TokenStream)
    (input : TokenStream) : Except ε TokenStream :=
  match gti input with
  | .error e => .error e
  | .ok a =>
    match gtd input with
    | .error e => .error e
    | .ok b => .ok (a ++ b)

/-- Embeds `generate`: a successful result is returned as is, an error is
rendered through `to_compile_error`. -/
def generate (to_compile_error : ε → TokenStream)
    (gti gtd : TokenStream → Except ε TokenStream)
    (input : TokenStream) : TokenStream :=
  match generate_impl gti gtd input with
  | .ok output => output
  | .error err => to_compile_error err

/-! ## Claim theorems -/

/-- Claim C3: `Namespace::new` rejects an empty segment list with
`MissingSegments`; if some segment is not a nonempty ASCII identifier it
fails with `InvalidIdentifier` at the leftmost such index; otherwise it
succeeds and stores exactly the given segments in order. -/
theorem claim_C3_namespace_new (S : List String) :
    (S = [] → Namespace.new S = .error .missingSegments)
    ∧ (∀ k (hk : k < S.length),
        is_rust_identifier (S.get ⟨k, hk⟩) = false →
        (∀ j (hj : j < k), is_rust_identifier (S.get ⟨j, Nat.lt_trans hj hk⟩) = true) →
        Namespace.new S = .error (.invalidIdentifier k))
    ∧ ((∀ s ∈ S, is_rust_identifier s = true) → S ≠ [] → Namespace.new S = .ok ⟨S⟩) := by
  refine ⟨?_, ?_, ?_⟩
  · intro h
    subst h
    rfl
  · intro k hk hbad hgood
    have hlen : ¬ S.length = 0 := by
      intro h0
      rw [h0] at hk
      exact Nat.not_lt_zero k hk
    have hpos : position (fun seg => !is_rust_identifier seg) S = some k := by
      apply position_eq_some_first hk
      · simpa using hbad
      · intro j hj
        simpa using hgood j hj
    simp [Namespace.new, hlen, hpos]
  · intro hall hne
    have hlen : ¬ S.length = 0 := by
      simpa [List.length_eq_zero] using hne
    have hpos : position (fun seg => !is_rust_identifier seg) S = none := by
      apply position_eq_none_of_all
      intro x hx
      simp [hall x hx]
    simp [Namespace.new, hlen, hpos]

/-- Witness for C3, on the inputs of the repository's own tests. -/
theorem claim_C3_witness :
    Namespace.new ([] : List String) = .error .missingSegments
    ∧ Namespace.new ["Hello", ", World!"] = .error (.invalidIdentifier 1)
    ∧ Namespace.new ["hello", "world"] = .ok ⟨["hello", "world"]⟩ := by
  have h1 := (claim_C3_namespace_new []).1 rfl
  have hk : (1 : Nat) < (["Hello", ", World!"] : List String).length := by decide
  have hbad : is_rust_identifier ((["Hello", ", World!"] : List String).get ⟨1, hk⟩) = false :=
    rfl
  have hgood : ∀ j (hj : j < 1),
      is_rust_identifier ((["Hello", ", World!"] : List String).get
        ⟨j, Nat.lt_trans hj hk⟩) = true := by
    intro j hj
    have hj0 : j = 0 := by omega
    subst hj0
    rfl
  have h2 := (claim_C3_namespace_new ["Hello", ", World!"]).2.1 1 hk hbad hgood
  have h3 := (claim_C3_namespace_new ["hello", "world"]).2.2 (by decide) (by decide)
  exact ⟨h1, h2, h3⟩

/-- Claim C4: `Namespace::from_str` splits the path at the fixed separator
and forwards the segments to `Namespace::new`; on the repository's own
test path it produces the expected two segments. -/
theorem claim_C4_from_str_forwards :
    (∀ p, Namespace.from_str p = Namespace.new (splitPath p))
    ∧ Namespace.from_str "hello::world" = .ok ⟨["hello", "world"]⟩ :=
  ⟨fun _ => rfl, rfl⟩

/-- Claim C7: every namespace produced by `Namespace::new` stores the
given nonempty segment list unchanged, and `Namespace::prelude` is the
namespace with no segments. -/
theorem claim_C7_namespace_nonempty :
    (∀ S ns, Namespace.new S = .ok ns → ns.segments = S ∧ ns.segments ≠ [])
    ∧ Namespace.prelude.segments = [] := by
  constructor
  · intro S ns h
    by_cases hlen : S.length = 0
    · simp [Namespace.new, hlen] at h
    · cases hpos : position (fun seg => !is_rust_identifier seg) S with
      | some k => simp [Namespace.new, hlen, hpos] at h
      | none =>
        simp [Namespace.new, hlen, hpos] at h
        subst h
        refine ⟨rfl, ?_⟩
        simpa [List.length_eq_zero] using hlen
  · rfl

/-- Witness for C7 at a concrete valid namespace. -/
theorem claim_C7_witness :
    (Namespace.mk ["hello"]).segments = ["hello"]
    ∧ (Namespace.mk ["hello"]).segments ≠ []
    ∧ Namespace.prelude.segments = [] := by
  have h := claim_C7_namespace_nonempty
  have hok := h.1 ["hello"] ⟨["hello"]⟩ rfl
  exact ⟨hok.1, hok.2, h.2⟩

/-- Claim C9: splitting always yields at least one segment, so
`Namespace::from_str` can never fail with `MissingSegments`; the empty
path and a path starting with the separator both fail with
`InvalidIdentifier` at index 0, their first segment being empty. -/
theorem claim_C9_from_str_never_missing :
    (∀ p, Namespace.from_str p ≠ .error .missingSegments)
    ∧ Namespace.from_str "" = .error (.invalidIdentifier 0)
    ∧ Namespace.from_str "::world" = .error (.invalidIdentifier 0) := by
  refine ⟨?_, rfl, rfl⟩
  intro p h
  have hne := splitPath_ne_nil p
  have hlen : ¬ (splitPath p).length = 0 := by
    simpa [List.length_eq_zero] using hne
  unfold Namespace.from_str Namespace.new at h
  rw [if_neg hlen] at h
  cases hpos : position (fun seg => !is_rust_identifier seg) (splitPath p) with
  | some k =>
    rw [hpos] at h
    simp at h
  | none =>
    rw [hpos] at h
    simp at h

/-- Witness for C9 at concrete paths. -/
theorem claim_C9_witness :
    Namespace.from_str "hello" ≠ .error .missingSegments
    ∧ Namespace.from_str "" = .error (.invalidIdentifier 0)
    ∧ Namespace.from_str "::world" = .error (.invalidIdentifier 0) :=
  ⟨claim_C9_from_str_never_missing.1 "hello",
    claim_C9_from_str_never_missing.2.1,
    claim_C9_from_str_never_missing.2.2⟩

example : splitPath "hello::world" = ["hello", "world"] := by decide
example : splitPath "" = [""] := by decide
example : splitPath "::world" = ["", "world"] := by decide
example : is_rust_identifier "hello" = true := by decide
example : is_rust_identifier "" = false := by decide
example : is_rust_identifier ", World!" = false := by decide
example : Namespace.new ["Hello", ", World!"] = .error (.invalidIdentifier 1) := rfl

/-- Claim C1: equality, ordering and hashing of MetaType values are
determined solely by the identity token: equality holds iff the tokens are
equal, the ordering is the ordering of the tokens, hashing feeds exactly
the token to the hasher, and all three are insensitive to the stored
resolver function pointers. -/
theorem claim_C1_meta_type_identity (α β : Type) (a b : MetaType α β) :
    (MetaType.eq a b = true ↔ a.any_id = b.any_id)
    ∧ MetaType.cmp a b = compare a.any_id b.any_id
    ∧ (∀ (σ : Type) (writeAnyId : σ → Nat → σ) (state : σ),
        MetaType.hash a writeAnyId state = writeAnyId state a.any_id)
    ∧ (∀ (a2 b2 : MetaType α β), a.any_id = a2.any_id → b.any_id = b2.any_id →
        MetaType.eq a b = MetaType.eq a2 b2
        ∧ MetaType.cmp a b = MetaType.cmp a2 b2
        ∧ ∀ (σ : Type) (w : σ → Nat → σ) (st : σ),
            MetaType.hash a w st = MetaType.hash a2 w st) := by
  refine ⟨?_, rfl, fun σ w st => rfl, ?_⟩
  · simp [MetaType.eq]
  · intro a2 b2 h1 h2
    refine ⟨?_, ?_, ?_⟩ <;> simp [MetaType.eq, MetaType.cmp, MetaType.hash, h1, h2]

/-- Witness for C1 on handles with equal tokens but different resolvers. -/
theorem claim_C1_witness :
    MetaType.eq (⟨fun _ => 0, fun _ => 0, 3⟩ : MetaType Nat Nat) ⟨fun _ => 0, fun _ => 0, 5⟩
      = MetaType.eq (⟨fun _ => 1, fun _ => 2, 3⟩ : MetaType Nat Nat) ⟨fun _ => 3, fun _ => 4, 5⟩
    ∧ MetaType.cmp (⟨fun _ => 0, fun _ => 0, 3⟩ : MetaType Nat Nat) ⟨fun _ => 0, fun _ => 0, 5⟩
      = compare 3 5 := by
  have h := claim_C1_meta_type_identity Nat Nat
    ⟨fun _ => 0, fun _ => 0, 3⟩ ⟨fun _ => 0, fun _ => 0, 5⟩
  exact ⟨(h.2.2.2 ⟨fun _ => 1, fun _ => 2, 3⟩ ⟨fun _ => 3, fun _ => 4, 5⟩ rfl rfl).1, h.2.1⟩

/-- Claim C2: handles built from the same concrete type by `new` or `of`,
independently, coincide: `of` defers to `new`, their identity tokens are
equal, they compare equal, and their resolvers are the same functions so
`type_id` and `type_def` give equal results; handles of distinct concrete
types carry distinct identity tokens, the standard identity being
injective over types. -/
theorem claim_C2_meta_type_same_type (τ α β γ : Type) (env : TypeEnv τ α β)
    (t u : τ) (v w : γ) :
    MetaType.of env t v = MetaType.new env t
    ∧ (MetaType.of env t v).any_id = (MetaType.of env t w).any_id
    ∧ MetaType.eq (MetaType.new env t) (MetaType.of env t w) = true
    ∧ (MetaType.new env t).fn_type_id = (MetaType.of env t v).fn_type_id
    ∧ (MetaType.new env t).fn_type_def = (MetaType.of env t v).fn_type_def
    ∧ (MetaType.new env t).type_id = (MetaType.of env t v).type_id
    ∧ (MetaType.new env t).type_def = (MetaType.of env t v).type_def
    ∧ (Function.Injective env.anyIdOf → t ≠ u →
        (MetaType.new env t).any_id ≠ (MetaType.new env u).any_id) := by
  refine ⟨rfl, rfl, ?_, rfl, rfl, rfl, rfl, ?_⟩
  · simp [MetaType.eq, MetaType.new, MetaType.of]
  · intro hinj hne h
    exact hne (hinj h)

/-- Witness for C2 with the identity environment on natural-number type
tokens. -/
theorem claim_C2_witness :
    MetaType.of (⟨id, fun _ _ => 0, fun _ _ => 0⟩ : TypeEnv Nat Nat Nat) 1 ()
      = MetaType.new ⟨id, fun _ _ => 0, fun _ _ => 0⟩ 1
    ∧ MetaType.eq (MetaType.new (⟨id, fun _ _ => 0, fun _ _ => 0⟩ : TypeEnv Nat Nat Nat) 1)
        (MetaType.of ⟨id, fun _ _ => 0, fun _ _ => 0⟩ 1 ()) = true
    ∧ (MetaType.new (⟨id, fun _ _ => 0, fun _ _ => 0⟩ : TypeEnv Nat Nat Nat) 1).any_id
        ≠ (MetaType.new ⟨id, fun _ _ => 0, fun _ _ => 0⟩ 2).any_id := by
  have h := claim_C2_meta_type_same_type Nat Nat Nat Unit
    ⟨id, fun _ _ => 0, fun _ _ => 0⟩ 1 2 () ()
  exact ⟨h.1, h.2.2.1, h.2.2.2.2.2.2.2 (fun x y hxy => hxy) (by decide)⟩

/-- Claim C6: compacting a C-like enum variant replaces exactly the name,
with the index returned by `register_string` on the original name, and
leaves the discriminant numerically unchanged, for every input and every
registry state; the resulting registry is the one `register_string`
returned. -/
theorem claim_C6_clike_variant_frame (v : ClikeEnumVariant MetaForm) (r : Registry) :
    (v.into_compact r).1.discriminant = v.discriminant
    ∧ (v.into_compact r).1.name = (r.register_string v.name).1
    ∧ (v.into_compact r).2 = (r.register_string v.name).2 :=
  ⟨rfl, rfl, rfl⟩

/-- Claim C10: the derive entry point is total: when `generate_impl`
fails, `generate` returns the error rendered by `to_compile_error`; when
both per-aspect generators succeed, it returns the type-id tokens followed
by the type-def tokens. -/
theorem claim_C10_generate_total (ε : Type) (tce : ε → TokenStream)
    (gti gtd : TokenStream → Except ε TokenStream) (input : TokenStream) :
    (∀ e, generate_impl gti gtd input = .error e →
        generate tce gti gtd input = tce e)
    ∧ (∀ out, generate_impl gti gtd input = .ok out →
        generate tce gti gtd input = out)
    ∧ (∀ a b, gti input = .ok a → gtd input = .ok b →
        generate tce gti gtd input = a ++ b)
    ∧ (∀ e, gti input = .error e → generate tce gti gtd input = tce e)
    ∧ (∀ a e, gti input = .ok a → gtd input = .error e →
        generate tce gti gtd input = tce e) := by
  refine ⟨?_, ?_, ?_, ?_, ?_⟩
  · intro e h
    simp [generate, h]
  · intro out h
    simp [generate, h]
  · intro a b ha hb
    simp [generate, generate_impl, ha, hb]
  · intro e h
    simp [generate, generate_impl, h]
  · intro a e ha he
    simp [generate, generate_impl, ha, he]

/-- Witness for C10 with concrete generators for the success path and the
error path. -/
theorem claim_C10_witness :
    generate (fun e => [e]) (fun ts => .ok ts) (fun ts => .ok (ts ++ [7])) [1]
      = [1] ++ ([1] ++ [7])
    ∧ generate (fun e => [e]) (fun _ => .error 9) (fun ts => .ok ts) [1] = [9] := by
  have h1 := (claim_C10_generate_total Nat (fun e => [e])
    (fun ts => .ok ts) (fun ts => .ok (ts ++ [7])) [1]).2.2.1 [1] ([1] ++ [7]) rfl rfl
  have h2 := (claim_C10_generate_total Nat (fun e => [e])
    (fun _ => .error 9) (fun ts => .ok ts) [1]).2.2.2.1 9 rfl
  exact ⟨h1, h2⟩

/-- Claim C8: all TypeId and sum-type constructors and MetaType
construction are total: for every input they return the value holding
exactly the given fields, perform no validation, cannot fail, and MetaType
construction stores the resolvers without evaluating them — the identity
token it stores does not depend on them. -/
theorem claim_C8_constructors_total (name : String) (ns : Namespace)
    (params : List TypeId) (len : Nat) (elem : TypeId)
    (path : TypePath MetaForm) (cvs : List (ClikeEnumVariant MetaForm))
    (evs : List (EnumVariant MetaForm)) (disc : Nat)
    (nfs : List (NamedField MetaForm)) (ufs : List (UnnamedField MetaForm))
    (τ α β γ : Type) (env : TypeEnv τ α β) (t : τ) (v : γ) :
    (TypeIdCustom.new name ns params).name = name
    ∧ (TypeIdCustom.new name ns params).name_space = ns
    ∧ (TypeIdCustom.new name ns params).type_params = params
    ∧ (TypeIdArray.new len elem).len = len
    ∧ (TypeIdArray.new len elem).type_param = elem
    ∧ (TypeIdSlice.new elem).type_param = elem
    ∧ (TypeIdTuple.new params).type_params = params
    ∧ TypeIdTuple.unit = TypeIdTuple.new []
    ∧ TypeIdTuple.unit.type_params = []
    ∧ TypeSumClikeEnum.new path cvs = ⟨path, cvs⟩
    ∧ TypeSumEnum.new path evs = ⟨path, evs⟩
    ∧ ClikeEnumVariant.new name disc = ⟨name, disc⟩
    ∧ EnumVariantUnit.new name = ⟨name⟩
    ∧ EnumVariantStruct.new name nfs = ⟨name, nfs⟩
    ∧ EnumVariantTupleStruct.new name ufs = ⟨name, ufs⟩
    ∧ MetaType.new env t = ⟨env.resolveId t, env.resolveDef t, env.anyIdOf t⟩
    ∧ MetaType.of env t v = MetaType.new env t
    ∧ (∀ env2 : TypeEnv τ α β, env2.anyIdOf = env.anyIdOf →
        (MetaType.new env2 t).any_id = (MetaType.new env t).any_id) := by
  refine ⟨rfl, rfl, rfl, rfl, rfl, rfl, rfl, rfl, rfl, rfl, rfl, rfl, rfl, rfl, rfl,
    rfl, rfl, ?_⟩
  intro env2 h
  simp [MetaType.new, h]

/-- Witness for C8 at concrete inputs, with two environments that share
the identity function but have different resolvers. -/
theorem claim_C8_witness :
    (TypeIdTuple.new []).type_params = ([] : List TypeId)
    ∧ (MetaType.new (⟨id, fun _ _ => 5, fun _ _ => 6⟩ : TypeEnv Nat Nat Nat) 1).any_id
        = (MetaType.new (⟨id, fun _ _ => 0, fun _ _ => 0⟩ : TypeEnv Nat Nat Nat) 1).any_id := by
  have h := claim_C8_constructors_total "T" ⟨["m"]⟩ [] 0 (.tuple TypeIdTuple.unit)
    ⟨"p"⟩ [] [] 0 [] [] Nat Nat Nat Unit ⟨id, fun _ _ => 0, fun _ _ => 0⟩ 1 ()
  exact ⟨h.2.2.2.2.2.2.1, h.2.2.2.2.2.2.2.2.2.2.2.2.2.2.2.2.2
    ⟨id, fun _ _ => 5, fun _ _ => 6⟩ rfl⟩

/-- Claim C5: compaction preserves structure and declaration order:
`TypeSum::into_compact` maps `ClikeEnum` to `ClikeEnum` and `Enum` to
`Enum`; the variant lists of `TypeSumEnum` and `TypeSumClikeEnum` keep
their length and order, the i-th output variant being the compaction of
the i-th input variant under the registry threaded through the preceding
ones; `EnumVariant::into_compact` preserves the variant kind and compacts
the field lists element-wise in declaration order. -/
theorem claim_C5_compaction_preserves_structure :
    (∀ (c : TypeSumClikeEnum MetaForm) (r : Registry),
        TypeSum.into_compact (.clikeEnum c) r
          = (.clikeEnum (c.into_compact r).1, (c.into_compact r).2))
    ∧ (∀ (e : TypeSumEnum MetaForm) (r : Registry),
        TypeSum.into_compact (.enum e) r
          = (.enum (e.into_compact r).1, (e.into_compact r).2))
    ∧ (∀ (e : TypeSumEnum MetaForm) (r : Registry),
        ((e.into_compact r).1.variants).length = e.variants.length
        ∧ ∀ (i : Nat) (hi : i < e.variants.length),
            ((e.into_compact r).1.variants).get
                ⟨i, by simp [TypeSumEnum.into_compact, mapAccum_length]; exact hi⟩
              = (EnumVariant.into_compact (e.variants.get ⟨i, hi⟩)
                  ((mapAccum EnumVariant.into_compact (e.variants.take i)
                    (e.path.into_compact r).2).2)).1)
    ∧ (∀ (c : TypeSumClikeEnum MetaForm) (r : Registry),
        ((c.into_compact r).1.variants).length = c.variants.length
        ∧ ∀ (i : Nat) (hi : i < c.variants.length),
            ((c.into_compact r).1.variants).get
                ⟨i, by simp [TypeSumClikeEnum.into_compact, mapAccum_length]; exact hi⟩
              = (ClikeEnumVariant.into_compact (c.variants.get ⟨i, hi⟩)
                  ((mapAccum ClikeEnumVariant.into_compact (c.variants.take i)
                    (c.path.into_compact r).2).2)).1)
    ∧ (∀ (v : EnumVariant MetaForm) (r : Registry),
        ((EnumVariant.into_compact v r).1).kind = v.kind)
    ∧ (∀ (s : EnumVariantStruct MetaForm) (r : Registry),
        ((s.into_compact r).1.fields).length = s.fields.length
        ∧ ∀ (i : Nat) (hi : i < s.fields.length),
            ((s.into_compact r).1.fields).get
                ⟨i, by simp [EnumVariantStruct.into_compact, mapAccum_length]; exact hi⟩
              = (NamedField.into_compact (s.fields.get ⟨i, hi⟩)
                  ((mapAccum NamedField.into_compact (s.fields.take i)
                    (r.register_string s.name).2).2)).1)
    ∧ (∀ (ts : EnumVariantTupleStruct MetaForm) (r : Registry),
        ((ts.into_compact r).1.fields).length = ts.fields.length
        ∧ ∀ (i : Nat) (hi : i < ts.fields.length),
            ((ts.into_compact r).1.fields).get
                ⟨i, by simp [EnumVariantTupleStruct.into_compact, mapAccum_length]; exact hi⟩
              = (UnnamedField.into_compact (ts.fields.get ⟨i, hi⟩)
                  ((mapAccum UnnamedField.into_compact (ts.fields.take i)
                    (r.register_string ts.name).2).2)).1) := by
  refine ⟨fun c r => rfl, fun e r => rfl, ?_, ?_, ?_, ?_, ?_⟩
  · intro e r
    refine ⟨?_, ?_⟩
    · simp [TypeSumEnum.into_compact, mapAccum_length]
    · intro i hi
      exact mapAccum_get EnumVariant.into_compact e.variants (e.path.into_compact r).2 i hi
  · intro c r
    refine ⟨?_, ?_⟩
    · simp [TypeSumClikeEnum.into_compact, mapAccum_length]
    · intro i hi
      exact mapAccum_get ClikeEnumVariant.into_compact c.variants (c.path.into_compact r).2 i hi
  · intro v r
    cases v <;> rfl
  · intro s r
    refine ⟨?_, ?_⟩
    · simp [EnumVariantStruct.into_compact, mapAccum_length]
    · intro i hi
      exact mapAccum_get NamedField.into_compact s.fields (r.register_string s.name).2 i hi
  · intro ts r
    refine ⟨?_, ?_⟩
    · simp [EnumVariantTupleStruct.into_compact, mapAccum_length]
    · intro i hi
      exact mapAccum_get UnnamedField.into_compact ts.fields (r.register_string ts.name).2 i hi

/-- Witness for C5 on a concrete two-variant enum compacted from an empty
registry: the variant list keeps length 2, and the second output variant
is the compacted struct variant with interned name and field. -/
theorem claim_C5_witness :
    ((TypeSumEnum.into_compact ⟨⟨"MyEnum"⟩, [.unit ⟨"A"⟩, .struct ⟨"B", [⟨"x", 0⟩]⟩]⟩
        ⟨[], []⟩).1.variants).length = 2
    ∧ ((TypeSumEnum.into_compact ⟨⟨"MyEnum"⟩, [.unit ⟨"A"⟩, .struct ⟨"B", [⟨"x", 0⟩]⟩]⟩
        ⟨[], []⟩).1.variants).get ⟨1, by decide⟩ = .struct ⟨2, [⟨3, 0⟩]⟩ := by
  have h := claim_C5_compaction_preserves_structure
  have hlen := (h.2.2.1 ⟨⟨"MyEnum"⟩, [.unit ⟨"A"⟩, .struct ⟨"B", [⟨"x", 0⟩]⟩]⟩ ⟨[], []⟩).1
  have hget := (h.2.2.1 ⟨⟨"MyEnum"⟩, [.unit ⟨"A"⟩, .struct ⟨"B", [⟨"x", 0⟩]⟩]⟩
    ⟨[], []⟩).2 1 (by decide)
  exact ⟨hlen.trans rfl, hget.trans rfl⟩
